import Mathlib

/-!
Verification development for the ontology-mcp-server conversational
e-commerce assistant.  The Python source is shallowly embedded:

* money, rates and elapsed hours (Python `Decimal` / `float`) become `ℚ`;
* Python strings become `String` (or `List Char` where character-level
  manipulation matters), with the ASCII-relevant parts of `str.lower`,
  `str.upper`, `str.strip`, `str.isdigit` and the `in` substring test
  modelled explicitly;
* fallible code returns `Except`, and mutating services are modelled as
  functions from a database state to a database state;
* the language model and the tool executor are oracles supplied as
  function parameters: the loop never inspects them beyond their outputs.
-/

set_option autoImplicit false
set_option maxRecDepth 8192

namespace OntologyMCP

/-! ### Python string primitives -/

/-- Substring test: `needle` occurs inside `hay` (Python `needle in hay`). -/
def listContainsSub (needle : List Char) : List Char → Bool
  | [] => needle.isEmpty
  | c :: t => if needle.isPrefixOf (c :: t) then true else listContainsSub needle t

/-- Python `needle in hay` on strings. -/
def pyContains (hay needle : String) : Bool :=
  listContainsSub needle.toList hay.toList

/-- Python `str.lower` (ASCII case folding, character-wise). -/
def pyLower (s : String) : String :=
  ⟨s.toList.map Char.toLower⟩

/-- Python `str.strip`: drop whitespace from both ends. -/
def pyStrip (l : List Char) : List Char :=
  ((l.dropWhile Char.isWhitespace).reverse.dropWhile Char.isWhitespace).reverse

/-! ### Conversation stage

Modelled from the spec: `conversation_state.py` (ConversationStage) is not
part of the sources at hand; §4.3 of the specification lists the stages
greeting, browsing, selecting, cart, checkout, tracking, service, idle.
Only the `checkout` value is consulted by the validation gate. -/

inductive ConversationStage
  | greeting | browsing | selecting | cart | checkout | tracking | service | idle
  deriving DecidableEq, Repr

/-! ### EcommerceOntologyService (ecommerce_ontology.py) -/

/-- `infer_user_level` (ecommerce_ontology.py:84-131): threshold inference of
the loyalty tier from cumulative spend. -/
def inferUserLevel (totalSpent : ℚ) : String :=
  if totalSpent ≥ 10000 then "SVIP"
  else if totalSpent ≥ 5000 then "VIP"
  else "Regular"

/-- One applicable discount collected by `infer_discount`
(ecommerce_ontology.py:156-197). -/
structure DiscountCandidate where
  dtype : String
  rate : ℚ
  priority : ℕ
  rule : String
  deriving DecidableEq, Repr

def svipCandidate : DiscountCandidate :=
  ⟨"SVIP会员折扣", 90/100, 40, "SVIPDiscountRule"⟩

def vipCandidate : DiscountCandidate :=
  ⟨"VIP会员折扣", 95/100, 30, "VIPDiscountRule"⟩

def vol10kCandidate : DiscountCandidate :=
  ⟨"批量折扣(满10000)", 90/100, 25, "VolumeDiscount10kRule"⟩

def vol5kCandidate : DiscountCandidate :=
  ⟨"批量折扣(满5000)", 95/100, 15, "VolumeDiscount5kRule"⟩

def firstOrderCandidate : DiscountCandidate :=
  ⟨"首单折扣", 98/100, 5, "FirstOrderDiscountRule"⟩

/-- The list of individually applicable discounts built by `infer_discount`
(ecommerce_ontology.py:156-197), in source order: tier discount, then
volume discount, then first-order discount. -/
def applicableDiscounts (userLevel : String) (orderAmount : ℚ)
    (isFirstOrder : Bool) : List DiscountCandidate :=
  (if userLevel = "SVIP" then [svipCandidate]
   else if userLevel = "VIP" then [vipCandidate]
   else [])
  ++ (if orderAmount ≥ 10000 then [vol10kCandidate]
      else if orderAmount ≥ 5000 then [vol5kCandidate]
      else [])
  ++ (if isFirstOrder then [firstOrderCandidate] else [])

/-- Python `min(list, key=lambda x: x.rate)` starting from `head`: the first
candidate of strictly smallest rate wins. -/
def pyMinByRate (head : DiscountCandidate) (rest : List DiscountCandidate) :
    DiscountCandidate :=
  rest.foldl (fun best x => if x.rate < best.rate then x else best) head

/-- Result of `infer_discount`.  The Chinese `reason` text is modelled by
its information content: the chosen type plus the list of alternative
discount types that the reason records when several rules applied.
The no-discount result carries no `rule_applied` key, hence the `Option`. -/
structure DiscountInference where
  discountType : String
  discountRate : ℚ
  discountAmount : ℚ
  finalAmount : ℚ
  ruleApplied : Option String
  alternatives : List String
  deriving DecidableEq, Repr

/-- `infer_discount` (ecommerce_ontology.py:137-230): collect applicable
discounts, pick the lowest rate (no stacking), otherwise rate 1.0. -/
def inferDiscount (userLevel : String) (orderAmount : ℚ)
    (isFirstOrder : Bool) : DiscountInference :=
  match applicableDiscounts userLevel orderAmount isFirstOrder with
  | [] => ⟨"无折扣", 1, 0, orderAmount, none, []⟩
  | best0 :: rest =>
    let best := pyMinByRate best0 rest
    let finalAmount := orderAmount * best.rate
    let discountAmount := orderAmount - finalAmount
    let alts :=
      if (best0 :: rest).length > 1 then
        ((best0 :: rest).filter (fun d => d ≠ best)).map (fun d => d.dtype)
      else []
    ⟨best.dtype, best.rate, discountAmount, finalAmount, some best.rule, alts⟩

/-- Result of `infer_shipping` (ecommerce_ontology.py:236-295). -/
structure ShippingInference where
  shippingCost : ℚ
  shippingType : String
  freeShipping : Bool
  estimatedDays : ℕ
  deriving DecidableEq, Repr

/-- `infer_shipping` (ecommerce_ontology.py:236-295). -/
def inferShipping (userLevel : String) (orderAmount : ℚ)
    (isRemoteArea : Bool) : ShippingInference :=
  let base : ℚ × String × Bool :=
    if userLevel = "SVIP" then (0, "NextDayDelivery", true)
    else if userLevel = "VIP" then (0, "Standard", true)
    else if orderAmount ≥ 500 then (0, "Standard", true)
    else (15, "Standard", false)
  let withRemote : ℚ × Bool :=
    if isRemoteArea ∧ ¬(userLevel = "SVIP") then (base.1 + 30, false)
    else (base.1, base.2.2)
  ⟨withRemote.1, base.2.1, withRemote.2,
   if base.2.1 = "NextDayDelivery" then 1 else 3⟩

/-- Result of `infer_cancellation_policy` (ecommerce_ontology.py:378-463). -/
structure CancellationPolicy where
  status : String
  hoursSinceOrder : ℚ
  allowed : Bool
  rule : String
  deadlineHours : Option ℚ
  reason : String
  deriving DecidableEq, Repr

/-- Python `(order_status or "pending").lower()`: `None` and the empty
string are falsy and default to `"pending"`. -/
def normStatus (orderStatus : Option String) : String :=
  pyLower (match orderStatus with
    | none => "pending"
    | some s => if s = "" then "pending" else s)

/-- Python `max(float(hours_since_created or 0.0), 0.0)`: `None` (and the
falsy value `0.0` itself) become `0.0`, then negative values are clamped. -/
def clampHours (hoursSinceCreated : Option ℚ) : ℚ :=
  max (match hoursSinceCreated with | none => 0 | some h => h) 0

/-- `infer_cancellation_policy` (ecommerce_ontology.py:378-463): the order
cancellation state machine. -/
def inferCancellationPolicy (orderStatus : Option String)
    (hoursSinceCreated : Option ℚ) (hasShipment : Bool) : CancellationPolicy :=
  let status := normStatus orderStatus
  let hours := clampHours hoursSinceCreated
  if (status = "shipped" ∨ status = "delivered") ∨ hasShipment = true then
    ⟨status, hours, false, "ShippedCancellationBlockRule", some 0,
     "订单已发货，需走退货流程"⟩
  else if status = "pending" then
    if hours ≤ 24 then
      ⟨status, hours, true, "Pending24hCancellationRule", some 24,
       "待支付订单24小时内可直接取消"⟩
    else
      ⟨status, hours, false, "DefaultCancellationRule", some 24,
       "已超过24小时待支付取消窗口"⟩
  else if status = "paid" then
    if hasShipment = true then
      ⟨status, hours, false, "ShippedCancellationBlockRule", some 12,
       "已生成物流单，无法取消"⟩
    else if hours ≤ 12 then
      ⟨status, hours, true, "Paid12hCancellationRule", some 12,
       "已支付12小时内且未发货，可人工审核后取消"⟩
    else
      ⟨status, hours, false, "DefaultCancellationRule", some 12,
       "已超过12小时支付取消窗口"⟩
  else if status = "cancelled" ∨ status = "returned" then
    ⟨status, hours, false, "AlreadyTerminatedCancellationRule", none,
     "订单已终止，无需再次取消"⟩
  else
    ⟨status, hours, false, "DefaultCancellationRule", none,
     "当前状态不支持自动取消，请联系客服"⟩

/-- Remote-area heuristic of `infer_order_details`
(ecommerce_ontology.py:509-510): the address mentions one of the listed
regions. -/
def isRemoteAddress (addr : String) : Bool :=
  pyContains addr "西藏" || pyContains addr "新疆" || pyContains addr "内蒙古"

/-- Aggregate result of `infer_order_details`
(ecommerce_ontology.py:469-534). -/
structure OrderDetailsInference where
  originalLevel : String
  inferredLevel : String
  shouldUpgrade : Bool
  discountInference : DiscountInference
  shippingInference : ShippingInference
  originalAmount : ℚ
  totalPayable : ℚ
  deriving DecidableEq, Repr

/-- `infer_order_details` (ecommerce_ontology.py:469-534): tier re-inference,
discount on the order amount, shipping on the post-discount amount. -/
def inferOrderDetails (userLevel : String) (totalSpent : ℚ) (orderCount : ℕ)
    (orderAmount : ℚ) (shippingAddress : String) : OrderDetailsInference :=
  let inferredLevel := inferUserLevel totalSpent
  let discountInfo := inferDiscount inferredLevel orderAmount (orderCount = 0)
  let shippingInfo :=
    inferShipping inferredLevel discountInfo.finalAmount
      (isRemoteAddress shippingAddress)
  ⟨userLevel, inferredLevel, inferredLevel ≠ userLevel, discountInfo,
   shippingInfo, orderAmount,
   discountInfo.finalAmount + shippingInfo.shippingCost⟩

/-! ### LangChainAgent (react_agent.py): tool log, validation gate, dispatcher -/

/-- Parsed JSON-object arguments; values are kept opaque as strings. -/
abbrev JsonDict := List (String × String)

/-- One record of `tool_log` (react_agent.py:755-762): tool name, parsed
input, serialized observation, iteration index. -/
structure ToolLogEntry where
  tool : String
  input : JsonDict
  observation : String
  iteration : Int
  deriving DecidableEq, Repr

/-- The validation-trigger keywords of `_should_require_validation`
(react_agent.py:273). -/
def validationKeywords : List String :=
  ["验证订单", "shacl", "校验", "validate", "数据校验"]

def dictHasKey (d : JsonDict) (k : String) : Bool :=
  d.any (fun kv => kv.1 == k)

/-- The defaulting at react_agent.py:291-294: ensure the payload carries
`data` and `format` keys. -/
def withValidationDefaults (payload : JsonDict) : JsonDict :=
  let p1 := if dictHasKey payload "data" then payload else payload ++ [("data", "")]
  if dictHasKey p1 "format" then p1 else p1 ++ [("format", "turtle")]

/-- Index of the last `commerce_create_order` entry of the tool log
(react_agent.py:255-258). -/
def lastCreateIndexAux : List ToolLogEntry → ℕ → Option ℕ
  | [], _ => none
  | e :: rest, i =>
    match lastCreateIndexAux rest (i + 1) with
    | some j => some j
    | none => if e.tool = "commerce_create_order" then some i else none

def lastCreateIndex (toolLog : List ToolLogEntry) : Option ℕ :=
  lastCreateIndexAux toolLog 0

/-- The early exit of `_should_require_validation` (react_agent.py:260-263):
a validation call appears strictly after the most recent order creation. -/
def validatedAfterLastCreate (toolLog : List ToolLogEntry) : Bool :=
  match lastCreateIndex toolLog with
  | none => false
  | some i => (toolLog.drop (i + 1)).any (fun e => e.tool == "ontology_validate_order")

/-- Whether the lowered user input mentions a validation keyword
(react_agent.py:273-274). -/
def keywordHit (userInput : String) : Bool :=
  validationKeywords.any (fun k => pyContains (pyLower userInput) k)

/-- `_should_require_validation` (react_agent.py:244-296).  Returns the pair
`(requires_validation, payload)`.  The pending requirement and the tracked
stage are the relevant fields of the agent object, passed explicitly. -/
def shouldRequireValidation (pending : Option JsonDict)
    (stage : Option ConversationStage) (userInput : String)
    (toolLog : List ToolLogEntry) : Bool × Option JsonDict :=
  match pending with
  | some p => (true, some p)
  | none =>
    if validatedAfterLastCreate toolLog then (false, none)
    else
      let afterKeywordAndStage : Bool × JsonDict :=
        if keywordHit userInput then (true, [])
        else if stage = some ConversationStage.checkout then (true, [])
        else
          match toolLog.reverse.find? (fun e => e.tool == "commerce_create_order") with
          | some e => (true, e.input)
          | none => (false, [])
      if afterKeywordAndStage.1 = false then (false, none)
      else (true, some (withValidationDefaults afterKeywordAndStage.2))

/-! #### Tool dispatch (`_call_tool`, react_agent.py:343-386) -/

/-- The class/module metadata recorded in the observation envelope. -/
structure ToolInfo where
  className : String
  modName : String
  deriving DecidableEq, Repr

/-- Outcome of running a registered capability (argument parsing followed by
invocation): a serialized result, or a raised exception with its type name
and message. -/
inductive ToolOutcome
  | ok (result : String)
  | exn (exnType : String) (msg : String)
  deriving DecidableEq, Repr

/-- A registered capability: its metadata and its behaviour on the raw
arguments.  Exceptions raised by `parse_arguments` or `invoke` are the
`.exn` case. -/
structure RegisteredTool where
  info : ToolInfo
  run : String → ToolOutcome

/-- The observation string returned by `_call_tool`, modelled by its JSON
structure: either the plain unknown-tool text, or the
`{_tool_info, result}` / `{_tool_info, error}` envelope. -/
inductive Observation
  | plain (text : String)
  | resultEnvelope (info : ToolInfo) (result : String)
  | errorEnvelope (info : ToolInfo) (error : String)
  deriving DecidableEq, Repr

/-- `_call_tool` (react_agent.py:343-386): unknown tools yield a plain
observation; a raised exception is wrapped into an error envelope; a
successful invocation is wrapped into a result envelope.  The function is
total: no case lets an exception escape. -/
def callTool (toolMap : String → Option RegisteredTool) (name : String)
    (args : String) : Observation :=
  match toolMap name with
  | none => .plain ("未找到工具 " ++ name)
  | some tool =>
    match tool.run args with
    | .ok r => .resultEnvelope tool.info r
    | .exn ty msg =>
        .errorEnvelope tool.info ("调用失败: " ++ ty ++ ": " ++ msg)

/-! #### Orchestration loop (`run`, react_agent.py:388-980)

The language model is an oracle from the iteration number to its reply; the
tool executor is an oracle from name and arguments to the observation
string.  The message history only feeds these oracles, so it is not carried
in the model.  The loop state that the claims speak about — the pending
validation payload, the tool log, the last assistant content — is threaded
explicitly. -/

/-- The model's reply for one iteration: a provider failure, or content with
a (possibly empty) list of tool calls. -/
inductive LLMTurn
  | failure
  | reply (content : String) (toolCalls : List (String × JsonDict))

/-- How `run` ends: a normal final answer (react_agent.py:649-651), a
terminal LLM error (react_agent.py:570-597), or the iteration budget
exhausted (react_agent.py:784-789). -/
inductive RunOutcome
  | finalAnswer (text : String)
  | llmError (text : String)
  | maxIterations (text : String)
  deriving DecidableEq, Repr

/-- The default payload `{"data": "", "format": "turtle"}`. -/
def defaultValidationPayload : JsonDict := [("data", ""), ("format", "turtle")]

/-- Python `payload_hint or self._pending_validation or {"data": "", "format":
"turtle"}` (react_agent.py:544 and 638): empty dicts are falsy. -/
def resolvePending (hint current : Option JsonDict) : Option JsonDict :=
  let fromCurrent :=
    match current with
    | some c => if c = [] then defaultValidationPayload else c
    | none => defaultValidationPayload
  match hint with
  | some h => if h = [] then some fromCurrent else some h
  | none => some fromCurrent

/-- Sequential dispatch of one reply's tool calls (react_agent.py:653-783):
append each record to the tool log; a call of `ontology_validate_order`
clears the pending requirement (react_agent.py:766-769). -/
def processToolCalls (exec : String → JsonDict → String) (iteration : ℕ) :
    List (String × JsonDict) → Option JsonDict → List ToolLogEntry →
    Option JsonDict × List ToolLogEntry
  | [], pending, log => (pending, log)
  | (name, args) :: rest, pending, log =>
    let obs := exec name args
    let pending2 := if name = "ontology_validate_order" then none else pending
    processToolCalls exec iteration rest pending2
      (log ++ [⟨name, args, obs, (iteration : Int)⟩])

/-- The iteration body of `LangChainAgent.run` (react_agent.py:539-789),
by recursion on the remaining iteration budget.  Returns the outcome
together with the final pending payload and tool log. -/
def runLoop (llm : ℕ → LLMTurn) (exec : String → JsonDict → String)
    (stage : Option ConversationStage) (userInput : String) :
    ℕ → ℕ → Option JsonDict → List ToolLogEntry → Option String →
    RunOutcome × Option JsonDict × List ToolLogEntry
  | 0, _, pending, log, lastContent =>
    (.maxIterations (lastContent.getD ""), pending, log)
  | remaining + 1, iteration, pending, log, lastContent =>
    let gate := shouldRequireValidation pending stage userInput log
    let pending1 := if gate.1 then resolvePending gate.2 pending else pending
    match llm iteration with
    | .failure => (.llmError "LLM 调用失败", pending1, log)
    | .reply content calls =>
      if calls.isEmpty then
        let gate2 := shouldRequireValidation pending1 stage userInput log
        if gate2.1 then
          runLoop llm exec stage userInput remaining (iteration + 1)
            (resolvePending gate2.2 pending1) log (some content)
        else
          (.finalAnswer content, pending1, log)
      else
        let step := processToolCalls exec iteration calls pending1 log
        runLoop llm exec stage userInput remaining (iteration + 1)
          step.1 step.2 (some content)

/-- `LangChainAgent.run` for one turn with iteration budget `maxIterations`,
starting from the pending requirement carried over from earlier turns. -/
def runAgent (llm : ℕ → LLMTurn) (exec : String → JsonDict → String)
    (stage : Option ConversationStage) (userInput : String)
    (maxIterations : ℕ) (pending0 : Option JsonDict) :
    RunOutcome × Option JsonDict × List ToolLogEntry :=
  runLoop llm exec stage userInput maxIterations 1 pending0 [] none

/-! ### Persistence layer (db_service.py) and commerce layer
(commerce_service.py)

The relational store is modelled as an explicit state of rows.  Timestamps
are rational numbers measured in hours, so that `datetime.now() -
created_at` becomes a subtraction; the generated order number is supplied
by the caller as the environment's formatted clock value. -/

structure UserRow where
  userId : ℕ
  userLevel : String
  totalSpent : ℚ
  deriving DecidableEq, Repr

structure ProductRow where
  productId : ℕ
  productName : String
  category : String
  price : Option ℚ
  stockQuantity : ℤ
  deriving DecidableEq, Repr

structure OrderRow where
  orderId : ℕ
  orderNo : List Char
  userId : ℕ
  totalAmount : ℚ
  discountAmount : ℚ
  finalAmount : ℚ
  shippingAddress : String
  contactPhone : String
  orderStatus : String
  paymentStatus : String
  createdAt : Option ℚ
  deriving DecidableEq, Repr

structure OrderItemRow where
  orderId : ℕ
  productId : ℕ
  productName : String
  quantity : ℤ
  unitPrice : ℚ
  subtotal : ℚ
  deriving DecidableEq, Repr

structure ShipmentRow where
  orderId : ℕ
  trackingNo : String
  deriving DecidableEq, Repr

/-- The relational state touched by the order pipeline.  `nextOrderId`
models the autoincrement primary key counter. -/
structure DBState where
  users : List UserRow
  products : List ProductRow
  orders : List OrderRow
  orderItems : List OrderItemRow
  shipments : List ShipmentRow
  nextOrderId : ℕ
  deriving DecidableEq, Repr

/-- `UserService.get_user_by_id` (db_service.py:124-127). -/
def getUserById (st : DBState) (uid : ℕ) : Option UserRow :=
  st.users.find? (fun u => u.userId == uid)

/-- `ProductService.get_product_by_id` (db_service.py:194-197). -/
def getProductById (st : DBState) (pid : ℕ) : Option ProductRow :=
  st.products.find? (fun p => p.productId == pid)

/-- `ProductService.check_stock` (db_service.py:246-252). -/
def checkStock (st : DBState) (pid : ℕ) (requiredQuantity : ℤ) : Bool :=
  match getProductById st pid with
  | some p => p.stockQuantity ≥ requiredQuantity
  | none => false

/-- `ProductService.update_stock` (db_service.py:235-244); under the primary
key constraint, updating every row with the given id updates the single
matching row. -/
def updateStock (st : DBState) (pid : ℕ) (change : ℤ) : DBState :=
  { st with
    products := st.products.map fun p =>
      if p.productId == pid then { p with stockQuantity := p.stockQuantity + change }
      else p }

/-- `UserService.update_total_spent` (db_service.py:145-154). -/
def updateTotalSpent (st : DBState) (uid : ℕ) (amount : ℚ) : DBState :=
  { st with
    users := st.users.map fun u =>
      if u.userId == uid then { u with totalSpent := u.totalSpent + amount }
      else u }

/-- `UserService.update_user_level` (db_service.py:134-143). -/
def updateUserLevel (st : DBState) (uid : ℕ) (level : String) : DBState :=
  { st with
    users := st.users.map fun u =>
      if u.userId == uid then { u with userLevel := level } else u }

/-- `OrderService.get_order_by_id` (db_service.py:421-431). -/
def getOrderById (st : DBState) (oid : ℕ) : Option OrderRow :=
  st.orders.find? (fun o => o.orderId == oid)

/-- `OrderService.get_order_by_no` (db_service.py:433-443). -/
def getOrderByNo (st : DBState) (no : List Char) : Option OrderRow :=
  st.orders.find? (fun o => o.orderNo == no)

/-- `ShipmentService.get_shipment_by_order` (db_service.py:622-625). -/
def getShipmentByOrder (st : DBState) (oid : ℕ) : Option ShipmentRow :=
  st.shipments.find? (fun s => s.orderId == oid)

/-- `CommerceService._count_user_orders` (commerce_service.py:102-109). -/
def countUserOrders (st : DBState) (uid : ℕ) : ℕ :=
  (st.orders.filter (fun o => o.userId == uid)).length

/-- An item of a prepared order, as assembled by
`CommerceService.create_order` (commerce_service.py:394-401). -/
structure PreparedItem where
  productId : ℕ
  productName : String
  quantity : ℤ
  unitPrice : ℚ
  deriving DecidableEq, Repr

/-- `OrderService.create_order` (db_service.py:362-419): compute the total
from the items, set `final_amount = total_amount - discount_amount`, append
the order row and its item rows.  `orderNo` is the formatted
`ORD{timestamp}{user_id}` string and `createdAt` the clock value, both
supplied by the environment. -/
def orderServiceCreateOrder (st : DBState) (userId : ℕ)
    (items : List PreparedItem) (shippingAddress contactPhone : String)
    (discountAmount : ℚ) (orderNo : List Char) (createdAt : ℚ) :
    OrderRow × DBState :=
  let totalAmount := (items.map fun it => (it.quantity : ℚ) * it.unitPrice).sum
  let order : OrderRow :=
    ⟨st.nextOrderId, orderNo, userId, totalAmount, discountAmount,
     totalAmount - discountAmount, shippingAddress, contactPhone,
     "pending", "unpaid", some createdAt⟩
  let itemRows := items.map fun it =>
    (⟨st.nextOrderId, it.productId, it.productName, it.quantity, it.unitPrice,
      (it.quantity : ℚ) * it.unitPrice⟩ : OrderItemRow)
  (order,
   { st with
     orders := st.orders ++ [order]
     orderItems := st.orderItems ++ itemRows
     nextOrderId := st.nextOrderId + 1 })

/-- `OrderService.cancel_order` (db_service.py:494-503): set the status to
`cancelled` when the order exists and its status is pending or paid. -/
def orderServiceCancelOrder (st : DBState) (orderId : ℕ) : Bool × DBState :=
  match getOrderById st orderId with
  | none => (false, st)
  | some o =>
    if o.orderStatus = "pending" ∨ o.orderStatus = "paid" then
      (true,
       { st with
         orders := st.orders.map fun r =>
           if r.orderId == orderId then { r with orderStatus := "cancelled" }
           else r })
    else (false, st)

/-- Raw order items as supplied to `CommerceService.create_order`
(already parsed: `int(entry.get("product_id"))`,
`int(entry.get("quantity", 1))`, optional explicit unit price). -/
structure OrderItemInput where
  productId : ℕ
  quantity : ℤ
  unitPrice : Option ℚ
  deriving DecidableEq, Repr

/-- Unit-price resolution of `CommerceService.create_order`
(commerce_service.py:386-392): the explicit price wins, else the catalog
price, else nothing. -/
def resolveUnitPrice (entry : OrderItemInput) (product : ProductRow) :
    Option ℚ :=
  match entry.unitPrice with
  | some p => some p
  | none => product.price

/-- The per-item validation loop of `CommerceService.create_order`
(commerce_service.py:374-410): positive quantity, known product, enough
stock, resolvable unit price — all pure reads, performed before any
write.  Returns the prepared items and the accumulated order amount. -/
def prepareItems (st : DBState) : List OrderItemInput →
    Except String (List PreparedItem × ℚ)
  | [] => .ok ([], 0)
  | entry :: rest =>
    if entry.quantity ≤ 0 then .error "商品数量必须大于0"
    else
      match getProductById st entry.productId with
      | none => .error "商品不存在"
      | some product =>
        if ¬ checkStock st entry.productId entry.quantity then
          .error ("库存不足: " ++ product.productName)
        else
          match resolveUnitPrice entry product with
          | none => .error ("商品价格无效: " ++ product.productName)
          | some unitPrice =>
            match prepareItems st rest with
            | .error e => .error e
            | .ok (prepared, amount) =>
              .ok (⟨entry.productId, product.productName, entry.quantity,
                    unitPrice⟩ :: prepared,
                   amount + unitPrice * entry.quantity)

/-- Outcome of the external SHACL structural check around
commerce_service.py:427-444.  `validate_order` lives in the external
`shacl_service`; the commerce layer aborts only on an explicit
non-conformance and swallows an unavailable checker with a warning. -/
inductive ShaclOutcome
  | conforms
  | nonConformant (report : String)
  | unavailable (msg : String)

/-- `CommerceService.create_order` (commerce_service.py:357-465): validate
the request (fail fast, before any write), run the ontology inference,
run the structural check, then persist the order, decrement stock, add the
payable total to the user's cumulative spend and upgrade the tier if
re-inference says so.  Returns the result together with the possibly
updated state; every error path returns the state unchanged. -/
def commerceCreateOrder (st : DBState) (userId : ℕ)
    (items : List OrderItemInput) (shippingAddress contactPhone : String)
    (shacl : ShaclOutcome) (orderNo : List Char) (nowHours : ℚ) :
    Except String (OrderRow × OrderDetailsInference) × DBState :=
  if items.isEmpty then (.error "订单项不能为空", st)
  else
    match getUserById st userId with
    | none => (.error "用户不存在", st)
    | some user =>
      match prepareItems st items with
      | .error e => (.error e, st)
      | .ok (prepared, orderAmount) =>
        let inference :=
          inferOrderDetails user.userLevel user.totalSpent
            (countUserOrders st userId) orderAmount shippingAddress
        match shacl with
        | .nonConformant report =>
          (.error ("订单数据不符合本体约束规则: " ++ report), st)
        | _ =>
          let created :=
            orderServiceCreateOrder st userId prepared shippingAddress
              contactPhone inference.discountInference.discountAmount orderNo
              nowHours
          let st2 := prepared.foldl
            (fun s it => updateStock s it.productId (-it.quantity)) created.2
          let st3 := updateTotalSpent st2 userId inference.totalPayable
          let st4 :=
            if inference.shouldUpgrade then
              updateUserLevel st3 userId inference.inferredLevel
            else st3
          (.ok (created.1, inference), st4)

/-! #### Order identifier resolution (`_resolve_order_entity`,
commerce_service.py:57-94) -/

/-- Decimal digit characters, for reasoning about formatted identifiers. -/
def digitChars : List Char := ['0','1','2','3','4','5','6','7','8','9']

def digitChar (d : ℕ) : Char := Char.ofNat (48 + d)

/-- Python `int(digits)` on a nonempty decimal string. -/
def digitsToNat (l : List Char) : ℕ :=
  l.foldl (fun acc c => acc * 10 + (c.toNat - 48)) 0

/-- Decimal rendering of a natural number (Python `str(identifier)` for an
int), by fuelled recursion on the quotient. -/
def natToDigitsAux : ℕ → ℕ → List Char
  | 0, _ => []
  | fuel + 1, n =>
    if n < 10 then [digitChar n]
    else natToDigitsAux fuel (n / 10) ++ [digitChar (n % 10)]

def natToRepr (n : ℕ) : List Char := natToDigitsAux (n + 1) n

/-- An order identifier as accepted by `_resolve_order_entity`: a bare
numeric id or a string. -/
inductive OrderIdent
  | byId (n : ℕ)
  | byStr (s : List Char)

def identRaw : OrderIdent → List Char
  | .byId n => natToRepr n
  | .byStr s => s

/-- `CommerceService._resolve_order_entity` (commerce_service.py:57-94):
strip and upper-case the identifier, extract its digits, first try the
digits as a numeric id, then try an `ORD`-prefixed order number (the
given string when it already starts with `ORD`, else `ORD` plus the
digits when at least 15 digits were found). -/
def resolveOrderEntity (st : DBState) (ident : OrderIdent) :
    Except String OrderRow :=
  let raw := pyStrip (identRaw ident)
  if raw = [] then .error "order_id 不能为空"
  else
    let normalized := raw.map Char.toUpper
    let digits := normalized.filter Char.isDigit
    let byIdResult :=
      if digits = [] then none else getOrderById st (digitsToNat digits)
    match byIdResult with
    | some order => .ok order
    | none =>
      let orderNoCandidate : Option (List Char) :=
        if (['O','R','D'] : List Char).isPrefixOf normalized then some normalized
        else if digits ≠ [] ∧ digits.length ≥ 15 then
          some (['O','R','D'] ++ digits)
        else none
      match orderNoCandidate with
      | none => .error "订单不存在"
      | some no =>
        match getOrderByNo st no with
        | some order => .ok order
        | none => .error "订单不存在"

/-- Result of `get_order_detail` (commerce_service.py:467-475). -/
structure OrderDetailResult where
  order : OrderRow
  user : Option UserRow
  shipment : Option ShipmentRow
  deriving DecidableEq, Repr

/-- `CommerceService.get_order_detail` (commerce_service.py:467-475). -/
def getOrderDetail (st : DBState) (ident : OrderIdent) :
    Except String OrderDetailResult :=
  match resolveOrderEntity st ident with
  | .error e => .error e
  | .ok order =>
    .ok ⟨order, getUserById st order.userId, getShipmentByOrder st order.orderId⟩

/-! #### Order cancellation (`cancel_order`, commerce_service.py:477-524) -/

/-- The cancellation policy computed by `CommerceService.cancel_order` for a
resolved order at clock value `nowHours`: elapsed hours since creation
(`created_at or datetime.now()`), shipment presence, then the ontology
state machine. -/
def cancellationContext (st : DBState) (nowHours : ℚ) (order : OrderRow) :
    CancellationPolicy :=
  inferCancellationPolicy (some order.orderStatus)
    (some (nowHours - order.createdAt.getD nowHours))
    (getShipmentByOrder st order.orderId).isSome

/-- Result of `cancel_order`. -/
structure CancelResult where
  cancelled : Bool
  allowed : Bool
  policy : CancellationPolicy
  deriving DecidableEq, Repr

/-- `CommerceService.cancel_order` (commerce_service.py:477-524): resolve
the order, run the cancellation state machine, mutate the row only when
allowed, and return the policy rationale in every outcome. -/
def commerceCancelOrder (st : DBState) (nowHours : ℚ) (ident : OrderIdent) :
    Except String CancelResult × DBState :=
  match resolveOrderEntity st ident with
  | .error e => (.error e, st)
  | .ok order =>
    let policy := cancellationContext st nowHours order
    if policy.allowed = false then
      (.ok ⟨false, false, policy⟩, st)
    else
      let outcome := orderServiceCancelOrder st order.orderId
      let policy2 :=
        if outcome.1 then policy
        else { policy with allowed := false,
                           reason := "系统未能更新订单状态，可能已取消" }
      (.ok ⟨outcome.1, outcome.1, policy2⟩, outcome.2)

/-! ## Theorems -/

/-- C8: for every tool name and argument value, `_call_tool` returns an
observation and never lets an exception propagate: an unknown name yields
the plain not-found observation; a registered capability whose invocation
raises yields a structured envelope carrying an error field; a successful
invocation yields a result envelope.  Totality of `callTool` is the
no-escaping-exception property. -/
theorem callTool_always_returns_observation
    (toolMap : String → Option RegisteredTool) (name : String) (args : String) :
    (toolMap name = none →
      callTool toolMap name args = .plain ("未找到工具 " ++ name)) ∧
    (∀ tool ty msg, toolMap name = some tool → tool.run args = .exn ty msg →
      callTool toolMap name args =
        .errorEnvelope tool.info ("调用失败: " ++ ty ++ ": " ++ msg)) ∧
    (∀ tool r, toolMap name = some tool → tool.run args = .ok r →
      callTool toolMap name args = .resultEnvelope tool.info r) := by
  refine ⟨fun h => by simp [callTool, h],
    fun tool ty msg h1 h2 => by simp [callTool, h1, h2],
    fun tool r h1 h2 => by simp [callTool, h1, h2]⟩

/-- A two-entry registry for exercising `callTool`: one capability that
always raises, and nothing else. -/
def demoToolMap : String → Option RegisteredTool := fun name =>
  if name = "commerce_create_order" then
    some ⟨⟨"ToolDefinition", "mcp_adapter"⟩, fun _ => .exn "ValueError" "库存不足"⟩
  else none

theorem callTool_always_returns_observation_witness :
    callTool demoToolMap "missing_tool" "x" = .plain ("未找到工具 " ++ "missing_tool") ∧
    callTool demoToolMap "commerce_create_order" "x" =
      .errorEnvelope ⟨"ToolDefinition", "mcp_adapter"⟩
        ("调用失败: " ++ "ValueError" ++ ": " ++ "库存不足") :=
  ⟨(callTool_always_returns_observation demoToolMap "missing_tool" "x").1 rfl,
   (callTool_always_returns_observation demoToolMap "commerce_create_order" "x").2.1
     ⟨⟨"ToolDefinition", "mcp_adapter"⟩, fun _ => .exn "ValueError" "库存不足"⟩
     "ValueError" "库存不足" rfl rfl⟩

/-! ### Cancellation state machine (C3, C10) -/

lemma normStatus_lit (s : String) (hs : s ∈ ["pending", "paid", "shipped",
    "delivered", "cancelled", "returned"]) : normStatus (some s) = s := by
  simp only [List.mem_cons, List.mem_singleton, List.not_mem_nil, or_false] at hs
  rcases hs with rfl | rfl | rfl | rfl | rfl | rfl <;> decide

lemma clampHours_some (h : ℚ) : clampHours (some h) = max h 0 := rfl

lemma clampHours_le (h b : ℚ) (hb : 0 ≤ b) : clampHours (some h) ≤ b ↔ h ≤ b := by
  rw [clampHours_some, max_le_iff]
  exact ⟨fun hx => hx.1, fun hx => ⟨hx, hb⟩⟩

/-- C3 counterexample: on `status="pending"`, `hours_since_created=23` the
policy does allow cancellation, but the winning rule identifier is
`"Pending24hCancellationRule"`, not the `"Pending24hWindow"` promised by
the claim. -/
theorem cancellation_rule_name_counterexample :
    (inferCancellationPolicy (some "pending") (some 23) false).allowed = true ∧
    (inferCancellationPolicy (some "pending") (some 23) false).rule =
      "Pending24hCancellationRule" ∧
    (inferCancellationPolicy (some "pending") (some 23) false).rule ≠
      "Pending24hWindow" := by
  have h24 : clampHours (some 23) ≤ 24 := by
    rw [clampHours_le 23 24 (by norm_num)]; norm_num
  simp only [inferCancellationPolicy]
  rw [if_neg (by decide), if_pos (by decide), if_pos h24]
  refine ⟨rfl, rfl, by decide⟩

/-- C3 (amended): over the order-status domain, cancellation is allowed
exactly for a pending order within 24 hours with no shipment, or a paid
order within 12 hours with no shipment; a shipment always blocks
cancellation; shipped, delivered, cancelled and returned orders are never
cancellable.  The pending window at 23 hours fires rule
`"Pending24hCancellationRule"` (the source's identifier, amending the
claim's `"Pending24hWindow"`); 25 hours is refused; a paid order with a
shipment is refused at every elapsed time. -/
theorem cancellation_state_machine (status : String) (h : ℚ) (ship : Bool)
    (hs : status ∈ ["pending", "paid", "shipped", "delivered", "cancelled",
      "returned"]) :
    ((inferCancellationPolicy (some status) (some h) ship).allowed = true ↔
      ((status = "pending" ∧ h ≤ 24 ∧ ship = false) ∨
       (status = "paid" ∧ ship = false ∧ h ≤ 12))) ∧
    (inferCancellationPolicy (some "pending") (some 25) false).allowed = false ∧
    (∀ h2 : ℚ, (inferCancellationPolicy (some "paid") (some h2) true).allowed =
      false) := by
  refine ⟨?_, ?_, fun h2 => ?_⟩
  · simp only [List.mem_cons, List.mem_singleton, List.not_mem_nil, or_false] at hs
    rcases hs with rfl | rfl | rfl | rfl | rfl | rfl <;> cases ship <;>
        simp only [inferCancellationPolicy]
    · rw [if_neg (by decide), if_pos (by decide)]
      by_cases h24 : h ≤ 24
      · rw [if_pos ((clampHours_le h 24 (by norm_num)).mpr h24)]
        simp [h24]
      · rw [if_neg ((clampHours_le h 24 (by norm_num)).not.mpr h24)]
        simp [h24]
    · rw [if_pos (by decide)]
      refine iff_of_false (by simp) ?_
      rintro (⟨-, -, h3⟩ | ⟨h1, -, -⟩)
      · exact absurd h3 (by decide)
      · exact absurd h1 (by decide)
    · rw [if_neg (by decide), if_neg (by decide), if_pos (by decide),
        if_neg (by decide)]
      by_cases h12 : h ≤ 12
      · rw [if_pos ((clampHours_le h 12 (by norm_num)).mpr h12)]
        simp [h12]
      · rw [if_neg ((clampHours_le h 12 (by norm_num)).not.mpr h12)]
        simp [h12]
    · rw [if_pos (by decide)]
      refine iff_of_false (by simp) ?_
      rintro (⟨h1, -, -⟩ | ⟨-, h2, -⟩)
      · exact absurd h1 (by decide)
      · exact absurd h2 (by decide)
    all_goals
      first
        | rw [if_pos (by decide)]
        | rw [if_neg (by decide), if_neg (by decide), if_neg (by decide),
            if_pos (by decide)]
    all_goals
      refine iff_of_false (by simp) ?_
    all_goals
      rintro (⟨h1, -, -⟩ | ⟨h1, -, -⟩) <;> exact absurd h1 (by decide)
  · simp only [inferCancellationPolicy]
    rw [if_neg (by decide), if_pos (by decide),
      if_neg ((clampHours_le 25 24 (by norm_num)).not.mpr (by norm_num))]
  · simp only [inferCancellationPolicy]
    rw [if_pos (by decide)]

/-- C10: `infer_cancellation_policy` is total on degenerate inputs — a
missing or empty status is treated as `"pending"`, a missing elapsed-hours
value and any negative one are clamped to 0, and a status outside the
known set yields `allowed = false`.  Totality itself is witnessed by the
embedding being a total function. -/
theorem cancellation_total_on_degenerate_inputs :
    (∀ (hq : Option ℚ) (ship : Bool),
      (inferCancellationPolicy none hq ship).status = "pending" ∧
      (inferCancellationPolicy (some "") hq ship).status = "pending") ∧
    (∀ (s : Option String) (ship : Bool),
      (inferCancellationPolicy s none ship).hoursSinceOrder = 0) ∧
    (∀ (s : Option String) (ship : Bool) (h : ℚ), h < 0 →
      (inferCancellationPolicy s (some h) ship).hoursSinceOrder = 0) ∧
    (∀ (s : Option String) (hq : Option ℚ) (ship : Bool),
      normStatus s ∉ ["pending", "paid", "shipped", "delivered", "cancelled",
        "returned"] →
      (inferCancellationPolicy s hq ship).allowed = false) := by
  refine ⟨fun hq ship => ⟨?_, ?_⟩, fun s ship => ?_, fun s ship h hneg => ?_,
    fun s hq ship hna => ?_⟩
  · simp only [inferCancellationPolicy]
    split_ifs <;> exact (by decide : normStatus none = "pending")
  · simp only [inferCancellationPolicy]
    split_ifs <;> exact (by decide : normStatus (some "") = "pending")
  · have h0 : clampHours none = 0 := by simp [clampHours]
    simp only [inferCancellationPolicy]
    split_ifs <;> exact h0
  · have h0 : clampHours (some h) = 0 := by
      rw [clampHours_some]
      exact max_eq_right hneg.le
    simp only [inferCancellationPolicy]
    split_ifs <;> exact h0
  · simp only [inferCancellationPolicy]
    split_ifs <;>
      first
        | rfl
        | (exfalso; apply hna; simp_all)

/-- Witness for C3: the amended state machine applied to the concrete
inputs named by the claim. -/
theorem cancellation_state_machine_witness :
    ((inferCancellationPolicy (some "pending") (some 23) false).allowed = true ↔
      (("pending" = "pending" ∧ (23 : ℚ) ≤ 24 ∧ false = false) ∨
       ("pending" = "paid" ∧ false = false ∧ (23 : ℚ) ≤ 12))) ∧
    (inferCancellationPolicy (some "pending") (some 25) false).allowed = false ∧
    (∀ h2 : ℚ, (inferCancellationPolicy (some "paid") (some h2) true).allowed =
      false) :=
  cancellation_state_machine "pending" 23 false (by decide)

/-- Witness for C10: the degenerate-input clauses applied at concrete
inputs. -/
theorem cancellation_total_on_degenerate_inputs_witness :
    (inferCancellationPolicy (some "weird") (some (-3)) false).hoursSinceOrder
      = 0 ∧
    (inferCancellationPolicy (some "weird") (some (-3)) false).allowed =
      false :=
  ⟨cancellation_total_on_degenerate_inputs.2.2.1 (some "weird") false (-3)
      (by norm_num),
   cancellation_total_on_degenerate_inputs.2.2.2 (some "weird") (some (-3))
      false (by decide)⟩

/-! ### Validation gate (C2) -/

/-- C2 counterexample: the claim promises `true` whenever the input contains
a trigger keyword, but once a validation call follows the most recent
order-creation call the early exit at react_agent.py:260-263 returns
`false` before the keyword check is reached. -/
def gateCounterLog : List ToolLogEntry :=
  [⟨"commerce_create_order", [("user_id", "1")], "ok", 1⟩,
   ⟨"ontology_validate_order", [("data", "")], "ok", 1⟩]

theorem validation_gate_keyword_counterexample :
    keywordHit "validate" = true ∧
    (shouldRequireValidation none none "validate" gateCounterLog).1 = false := by
  decide

/-- C2 (amended): a pending requirement forces `true` first of all;
otherwise, a validation call observed strictly after the most recent
order-creation call forces `false` before the remaining conditions are
consulted; otherwise the gate returns `true` exactly when the lowered
input mentions a trigger keyword, or the tracked stage is checkout, or
some order-creation call is present in the tool log (which, the early
exit having failed, is exactly an order creation with no later validation
call). -/
theorem validation_gate_spec (pending : Option JsonDict)
    (stage : Option ConversationStage) (userInput : String)
    (toolLog : List ToolLogEntry) :
    (∀ p, pending = some p →
      (shouldRequireValidation pending stage userInput toolLog).1 = true) ∧
    (pending = none → validatedAfterLastCreate toolLog = true →
      (shouldRequireValidation pending stage userInput toolLog).1 = false) ∧
    (pending = none → validatedAfterLastCreate toolLog = false →
      ((shouldRequireValidation pending stage userInput toolLog).1 = true ↔
        (keywordHit userInput = true ∨ stage = some ConversationStage.checkout ∨
          ∃ e ∈ toolLog, e.tool = "commerce_create_order"))) := by
  refine ⟨fun p hp => ?_, fun hp hv => ?_, fun hp hv => ?_⟩
  · subst hp; rfl
  · subst hp
    simp only [shouldRequireValidation, hv, if_true]
  · subst hp
    simp only [shouldRequireValidation, hv, Bool.false_eq_true, if_false]
    by_cases hk : keywordHit userInput
    · simp [hk]
    · simp only [hk, Bool.false_eq_true, if_false]
      by_cases hst : stage = some ConversationStage.checkout
      · simp [hst]
      · simp only [hst, if_false]
        rcases hfind : toolLog.reverse.find?
            (fun e => e.tool == "commerce_create_order") with - | e
        · have hnone : ∀ e ∈ toolLog, ¬ e.tool = "commerce_create_order" := by
            intro e he
            have := List.find?_eq_none.mp hfind e (List.mem_reverse.mpr he)
            simpa using this
          simp only [hfind]
          constructor
          · intro hcontra
            simp at hcontra
          · rintro (hcontra | hcontra | ⟨e, he, hee⟩)
            · exact hcontra.elim
            · exact hcontra.elim
            · exact absurd hee (hnone e he)
        · have hmem : e ∈ toolLog :=
            List.mem_reverse.mp (List.mem_of_find?_eq_some hfind)
          have hee : e.tool = "commerce_create_order" := by
            have := List.find?_some hfind
            simpa using this
          simp only [hfind]
          constructor
          · intro _
            exact Or.inr (Or.inr ⟨e, hmem, hee⟩)
          · intro _
            simp

/-- Witness for C2: the pending clause at a concrete pending payload, and
the keyword clause on an empty log. -/
theorem validation_gate_spec_witness :
    (shouldRequireValidation (some defaultValidationPayload) none "hi" []).1 =
      true ∧
    ((shouldRequireValidation none none "请帮我校验订单" []).1 = true ↔
      (keywordHit "请帮我校验订单" = true ∨
        none = some ConversationStage.checkout ∨
        ∃ e ∈ ([] : List ToolLogEntry), e.tool = "commerce_create_order")) :=
  ⟨(validation_gate_spec (some defaultValidationPayload) none "hi" []).1
      defaultValidationPayload rfl,
   (validation_gate_spec none none "请帮我校验订单" []).2.2 rfl (by decide)⟩

/-! ### Orchestration loop (C1) -/

/-- C1: for every language-model oracle, tool executor, tracked stage,
user input, iteration budget and carried-over state, whenever the loop
ends in a normal completion (`finalAnswer`, the react_agent.py:649-651
break — neither the LLM-error return nor the max-iterations fallback),
the validation gate evaluated on the final state reports no outstanding
requirement, and in particular no pending payload is left.  The
no-tool-call re-check at react_agent.py:635-647 `continue`s instead of
terminating while the gate is pending. -/
theorem run_normal_completion_requires_gate_clear (llm : ℕ → LLMTurn)
    (exec : String → JsonDict → String) (stage : Option ConversationStage)
    (userInput : String) (fuel iteration : ℕ) (pending : Option JsonDict)
    (log : List ToolLogEntry) (lastContent : Option String) (t : String)
    (pendingF : Option JsonDict) (logF : List ToolLogEntry)
    (hrun : runLoop llm exec stage userInput fuel iteration pending log
      lastContent = (.finalAnswer t, pendingF, logF)) :
    (shouldRequireValidation pendingF stage userInput logF).1 = false ∧
      pendingF = none := by
  induction fuel generalizing iteration pending log lastContent with
  | zero => exact absurd hrun (by simp [runLoop])
  | succ n ih =>
    rw [runLoop] at hrun
    cases hllm : llm iteration with
    | failure =>
      rw [hllm] at hrun
      exact absurd hrun (by simp)
    | reply content calls =>
      rw [hllm] at hrun
      by_cases hc : calls.isEmpty
      · simp only [hc, if_true] at hrun
        set pending1 :=
          (if (shouldRequireValidation pending stage userInput log).1 then
            resolvePending (shouldRequireValidation pending stage userInput
              log).2 pending
          else pending) with hp1
        by_cases hg : (shouldRequireValidation pending1 stage userInput log).1
        · simp only [← hp1, hg, if_true] at hrun
          exact ih _ _ _ _ hrun
        · simp only [← hp1, hg, Bool.false_eq_true, if_false] at hrun
          have hpf : pendingF = pending1 := by
            have := congrArg (fun x => x.2.1) hrun
            simpa using this.symm
          have hlf : logF = log := by
            have := congrArg (fun x => x.2.2) hrun
            simpa using this.symm
          subst hpf; subst hlf
          refine ⟨by simpa using hg, ?_⟩
          cases hpd : pending1 with
          | none => rfl
          | some p =>
            rw [hpd] at hg
            exact absurd (rfl :
              (shouldRequireValidation (some p) stage userInput logF).1 = true) hg
      · simp only [hc, Bool.false_eq_true, if_false] at hrun
        exact ih _ _ _ _ hrun

/-- A model oracle that immediately answers with no tool calls, and a
trivial executor, for the loop witness. -/
def plainReplyLLM : ℕ → LLMTurn := fun _ => .reply "您好" []

def trivialExec : String → JsonDict → String := fun _ _ => ""

/-- Witness for C1: a clean turn (no pending requirement, no trigger) ends
normally, and the theorem applied to its run equation yields the cleared
gate. -/
theorem run_normal_completion_requires_gate_clear_witness :
    (shouldRequireValidation none none "你好" []).1 = false ∧
      (none : Option JsonDict) = none :=
  run_normal_completion_requires_gate_clear plainReplyLLM trivialExec none
    "你好" 6 1 none [] none "您好" none [] (by decide)

/-! ### Discount selection (C4) -/

lemma pyMinByRate_mem : ∀ (rest : List DiscountCandidate)
    (head : DiscountCandidate), pyMinByRate head rest ∈ head :: rest
  | [], head => by simp [pyMinByRate]
  | x :: t, head => by
    have h := pyMinByRate_mem t (if x.rate < head.rate then x else head)
    simp only [pyMinByRate, List.foldl_cons] at h ⊢
    rcases List.mem_cons.mp h with h1 | h1
    · rw [h1]
      by_cases hx : x.rate < head.rate
      · simp [hx]
      · simp [hx]
    · simp [List.mem_cons.mpr (Or.inr h1), h1]

lemma pyMinByRate_le : ∀ (rest : List DiscountCandidate)
    (head : DiscountCandidate), ∀ d ∈ head :: rest,
    (pyMinByRate head rest).rate ≤ d.rate
  | [], head => by
    intro d hd
    rcases List.mem_cons.mp hd with rfl | hd1
    · exact le_refl _
    · exact absurd hd1 (List.not_mem_nil d)
  | x :: t, head => by
    intro d hd
    have hle1 : (if x.rate < head.rate then x else head).rate ≤ head.rate := by
      by_cases hx : x.rate < head.rate
      · simp [hx]; exact hx.le
      · simp [hx]
    have hle2 : (if x.rate < head.rate then x else head).rate ≤ x.rate := by
      by_cases hx : x.rate < head.rate
      · simp [hx]
      · simp [hx]; exact le_of_not_lt hx
    have ih := pyMinByRate_le t (if x.rate < head.rate then x else head)
    simp only [pyMinByRate, List.foldl_cons] at ih ⊢
    rcases List.mem_cons.mp hd with rfl | hd1
    · exact le_trans (ih _ (List.mem_cons_self _ _)) hle1
    · rcases List.mem_cons.mp hd1 with rfl | hd2
      · exact le_trans (ih _ (List.mem_cons_self _ _)) hle2
      · exact ih d (List.mem_cons_of_mem _ hd2)

/-- C4: `infer_discount` picks, among the individually applicable
discounts, the single rule with the minimum rate (never stacking), keeps
rate 1.0 when none applies, records every non-chosen applicable type in
the alternatives of the justification, and on tier VIP with order amount
12000 chooses the 0.90 volume rate, not the 0.95 tier rate. -/
theorem discount_selects_minimum_rate (userLevel : String) (orderAmount : ℚ)
    (isFirstOrder : Bool) :
    (applicableDiscounts userLevel orderAmount isFirstOrder = [] →
      inferDiscount userLevel orderAmount isFirstOrder =
        ⟨"无折扣", 1, 0, orderAmount, none, []⟩) ∧
    (∀ d ∈ applicableDiscounts userLevel orderAmount isFirstOrder,
      (inferDiscount userLevel orderAmount isFirstOrder).discountRate ≤
        d.rate) ∧
    (applicableDiscounts userLevel orderAmount isFirstOrder ≠ [] →
      ∃ d ∈ applicableDiscounts userLevel orderAmount isFirstOrder,
        inferDiscount userLevel orderAmount isFirstOrder =
          ⟨d.dtype, d.rate, orderAmount - orderAmount * d.rate,
           orderAmount * d.rate, some d.rule,
           (inferDiscount userLevel orderAmount isFirstOrder).alternatives⟩) ∧
    (∀ d ∈ applicableDiscounts userLevel orderAmount isFirstOrder,
      d.dtype =
        (inferDiscount userLevel orderAmount isFirstOrder).discountType ∨
      d.dtype ∈
        (inferDiscount userLevel orderAmount isFirstOrder).alternatives) ∧
    (inferDiscount "VIP" 12000 false).discountRate = 90/100 ∧
    (inferDiscount "VIP" 12000 false).ruleApplied =
      some "VolumeDiscount10kRule" := by
  have happV : applicableDiscounts "VIP" 12000 false =
      [vipCandidate, vol10kCandidate] := by
    simp only [applicableDiscounts,
      eq_false (by decide : ("VIP" : String) ≠ "SVIP"), eq_self_iff_true,
      if_true, if_false, Bool.false_eq_true]
    norm_num
  have hminV : pyMinByRate vipCandidate [vol10kCandidate] = vol10kCandidate := by
    simp only [pyMinByRate, List.foldl_cons, List.foldl_nil]
    rw [if_pos (by norm_num [vipCandidate, vol10kCandidate])]
  rcases happ : applicableDiscounts userLevel orderAmount isFirstOrder with
    - | ⟨b0, rest⟩
  · refine ⟨fun _ => ?_, fun d hd => ?_, fun hne => absurd rfl hne,
      fun d hd => ?_, ?_, ?_⟩
    · simp [inferDiscount, happ]
    · exact absurd hd (List.not_mem_nil d)
    · exact absurd hd (List.not_mem_nil d)
    · simp only [inferDiscount, happV, hminV]
      rfl
    · simp only [inferDiscount, happV, hminV]
      rfl
  · refine ⟨fun hc => absurd hc (by simp), fun d hd => ?_, fun _ => ?_,
      fun d hd => ?_, ?_, ?_⟩
    · simp only [inferDiscount, happ]
      exact pyMinByRate_le rest b0 d hd
    · refine ⟨pyMinByRate b0 rest, pyMinByRate_mem rest b0, ?_⟩
      simp only [inferDiscount, happ]
    · by_cases hbd : d = pyMinByRate b0 rest
      · left
        rw [hbd]
        simp only [inferDiscount, happ]
      · right
        simp only [inferDiscount, happ]
        cases rest with
        | nil =>
          rcases List.mem_cons.mp hd with rfl | hd1
          · exact absurd (by simp [pyMinByRate]) hbd
          · exact absurd hd1 (List.not_mem_nil d)
        | cons y t =>
          rw [if_pos (by simp)]
          exact List.mem_map.mpr ⟨d, List.mem_filter.mpr ⟨hd, by
            simpa using hbd⟩, rfl⟩
    · simp only [inferDiscount, happV, hminV]
      rfl
    · simp only [inferDiscount, happV, hminV]
      rfl

/-- Witness for C4: no discount applies at tier Regular, amount 100, not a
first order; the empty-case clause of the theorem gives rate 1.0. -/
theorem discount_selects_minimum_rate_witness :
    inferDiscount "Regular" 100 false = ⟨"无折扣", 1, 0, 100, none, []⟩ ∧
    (inferDiscount "VIP" 12000 false).discountRate = 90/100 :=
  ⟨(discount_selects_minimum_rate "Regular" 100 false).1 (by
      simp only [applicableDiscounts,
        eq_false (by decide : ("Regular" : String) ≠ "SVIP"),
        eq_false (by decide : ("Regular" : String) ≠ "VIP"), if_false,
        Bool.false_eq_true]
      norm_num),
   (discount_selects_minimum_rate "VIP" 12000 false).2.2.2.2.1⟩

/-! ### Order creation fails fast (C5) and net-amount invariant (C6) -/

/-- An order item that must make `create_order` raise: non-positive
quantity, unknown product, insufficient stock, or unresolvable unit
price. -/
def badItemInput (st : DBState) (entry : OrderItemInput) : Prop :=
  entry.quantity ≤ 0 ∨
  getProductById st entry.productId = none ∨
  (∃ p, getProductById st entry.productId = some p ∧
    (p.stockQuantity < entry.quantity ∨
      (entry.unitPrice = none ∧ p.price = none)))

lemma prepareItems_error_of_bad (st : DBState) :
    ∀ (items : List OrderItemInput), (∃ e ∈ items, badItemInput st e) →
      ∃ msg, prepareItems st items = .error msg := by
  intro items
  induction items with
  | nil => rintro ⟨e, he, -⟩; exact absurd he (List.not_mem_nil e)
  | cons entry rest ih =>
    rintro ⟨e, he, hbad⟩
    rw [prepareItems]
    by_cases hq : entry.quantity ≤ 0
    · exact ⟨_, by rw [if_pos hq]⟩
    · rw [if_neg hq]
      rcases hp : getProductById st entry.productId with - | product
      · exact ⟨"商品不存在", rfl⟩
      · dsimp only
        by_cases hstock : checkStock st entry.productId entry.quantity = true
        · rw [if_neg (not_not_intro hstock)]
          rcases hprice : resolveUnitPrice entry product with - | unitPrice
          · exact ⟨_, rfl⟩
          · dsimp only
            have hrest : ∃ e2 ∈ rest, badItemInput st e2 := by
              rcases List.mem_cons.mp he with rfl | hmem
              · exfalso
                rcases hbad with hb | hb | ⟨p2, hp2, hb⟩
                · exact hq hb
                · rw [hp] at hb
                  exact Option.noConfusion hb
                · rw [hp] at hp2
                  have hpe : product = p2 := by injection hp2
                  rcases hb with hb | ⟨hb1, hb2⟩
                  · have hcontra :
                        ¬ checkStock st e.productId e.quantity = true := by
                      simp only [checkStock, hp, ← hpe] at *
                      simpa using not_le.mpr hb
                    exact hcontra hstock
                  · rw [resolveUnitPrice, hb1] at hprice
                    dsimp only at hprice
                    rw [hpe, hb2] at hprice
                    exact Option.noConfusion hprice
              · exact ⟨e, hmem, hbad⟩
            rcases ih hrest with ⟨msg, hmsg⟩
            rw [hmsg]
            exact ⟨msg, rfl⟩
        · exact ⟨_, by rw [if_pos hstock]⟩

/-- C5: `create_order` raises a validation error — and leaves the state
untouched: no stock decrement, no order or item row, no spend update —
whenever the item list is empty or some item has a non-positive quantity,
an unknown product, a quantity above the available stock, or a unit price
resolvable neither from the argument nor from the catalog.  All checks
precede every persistence write. -/
theorem create_order_fails_fast_without_writes (st : DBState) (userId : ℕ)
    (items : List OrderItemInput) (addr phone : String)
    (shacl : ShaclOutcome) (orderNo : List Char) (nowHours : ℚ)
    (hbad : items = [] ∨ ∃ e ∈ items, badItemInput st e) :
    (∃ msg, (commerceCreateOrder st userId items addr phone shacl orderNo
      nowHours).1 = .error msg) ∧
    (commerceCreateOrder st userId items addr phone shacl orderNo
      nowHours).2 = st := by
  rcases hbad with rfl | hbad
  · exact ⟨⟨"订单项不能为空", rfl⟩, rfl⟩
  · have hne : items.isEmpty = false := by
      rcases hbad with ⟨e, he, -⟩
      cases items with
      | nil => exact absurd he (List.not_mem_nil e)
      | cons a t => rfl
    rw [commerceCreateOrder, hne]
    simp only [Bool.false_eq_true, if_false]
    rcases hu : getUserById st userId with - | user
    · exact ⟨⟨"用户不存在", rfl⟩, rfl⟩
    · rcases prepareItems_error_of_bad st items hbad with ⟨msg, hmsg⟩
      rw [hmsg]
      exact ⟨⟨msg, rfl⟩, rfl⟩

/-- A one-user one-product state: the product has zero stock, so any
requested quantity must be refused. -/
def outOfStockState : DBState :=
  ⟨[⟨1, "Regular", 0⟩], [⟨1, "iPhone 15", "手机", some 5999, 0⟩], [], [], [], 1⟩

/-- Witness for C5: requesting quantity 1 of the zero-stock product fails
and the state is returned unchanged. -/
theorem create_order_fails_fast_without_writes_witness :
    (∃ msg, (commerceCreateOrder outOfStockState 1 [⟨1, 1, none⟩] "北京"
      "13800000000" .conforms ['O','R','D'] 0).1 = .error msg) ∧
    (commerceCreateOrder outOfStockState 1 [⟨1, 1, none⟩] "北京"
      "13800000000" .conforms ['O','R','D'] 0).2 = outOfStockState :=
  create_order_fails_fast_without_writes outOfStockState 1 [⟨1, 1, none⟩]
    "北京" "13800000000" .conforms ['O','R','D'] 0
    (Or.inr ⟨⟨1, 1, none⟩, List.mem_cons_self _ _,
      Or.inr (Or.inr ⟨⟨1, "iPhone 15", "手机", some 5999, 0⟩, rfl,
        Or.inl (by norm_num)⟩)⟩)

/-- C6: for every order the pipeline successfully creates, the persisted
net (final) amount equals the gross (total) amount minus the discount
amount exactly, the discount amount is the one computed by the discount
inference, and the gross amount is the sum over the prepared items of
quantity times resolved unit price. -/
theorem order_net_amount_invariant (st : DBState) (userId : ℕ)
    (items : List OrderItemInput) (addr phone : String)
    (shacl : ShaclOutcome) (orderNo : List Char) (nowHours : ℚ)
    (order : OrderRow) (inf : OrderDetailsInference)
    (hok : (commerceCreateOrder st userId items addr phone shacl orderNo
      nowHours).1 = .ok (order, inf)) :
    order.finalAmount = order.totalAmount - order.discountAmount ∧
    order.discountAmount = inf.discountInference.discountAmount ∧
    ∃ prepared amount, prepareItems st items = .ok (prepared, amount) ∧
      order.totalAmount =
        (prepared.map fun it => (it.quantity : ℚ) * it.unitPrice).sum := by
  unfold commerceCreateOrder at hok
  by_cases hne : items.isEmpty = true
  · rw [if_pos hne] at hok
    exact absurd hok (by simp)
  · rw [if_neg hne] at hok
    cases hu : getUserById st userId with
    | none =>
      rw [hu] at hok
      exact absurd hok (by simp)
    | some user =>
      rw [hu] at hok
      dsimp only at hok
      cases hpi : prepareItems st items with
      | error e =>
        rw [hpi] at hok
        exact absurd hok (by simp)
      | ok pa =>
        obtain ⟨prepared, amount⟩ := pa
        rw [hpi] at hok
        dsimp only at hok
        cases shacl with
        | nonConformant report => exact absurd hok (by simp)
        | conforms =>
          dsimp only at hok
          simp only [Except.ok.injEq, Prod.mk.injEq] at hok
          obtain ⟨hX, hY⟩ := hok
          subst hX
          subst hY
          exact ⟨rfl, rfl, prepared, amount, rfl, rfl⟩
        | unavailable msg =>
          dsimp only at hok
          simp only [Except.ok.injEq, Prod.mk.injEq] at hok
          obtain ⟨hX, hY⟩ := hok
          subst hX
          subst hY
          exact ⟨rfl, rfl, prepared, amount, rfl, rfl⟩

/-- A state for a successful creation: one Regular user with one earlier
order (so the first-order discount does not fire), one product with
price 100 and ample stock. -/
def c6State : DBState :=
  ⟨[⟨1, "Regular", 0⟩], [⟨1, "AirPods", "配件", some 100, 10⟩],
   [⟨0, ['X'], 1, 50, 0, 50, "a", "b", "pending", "unpaid", none⟩],
   [], [], 1⟩

/-- The order row the pipeline persists for two units at price 100. -/
def c6OrderRow : OrderRow :=
  ⟨1, ['O','R','D','1'], 1, 200, 0, 200, "南京市", "13900000000", "pending",
   "unpaid", some 5⟩

/-- The inference bundle for that order: no discount, flat 15 shipping. -/
def c6Inference : OrderDetailsInference :=
  ⟨"Regular", "Regular", false, ⟨"无折扣", 1, 0, 200, none, []⟩,
   ⟨15, "Standard", false, 3⟩, 200, 215⟩

/-- Witness for C6: the invariant instantiated on a concrete successful
creation. -/
theorem order_net_amount_invariant_witness :
    c6OrderRow.finalAmount = c6OrderRow.totalAmount -
      c6OrderRow.discountAmount ∧
    c6OrderRow.discountAmount = c6Inference.discountInference.discountAmount ∧
    ∃ prepared amount,
      prepareItems c6State [⟨1, 2, none⟩] = .ok (prepared, amount) ∧
      c6OrderRow.totalAmount =
        (prepared.map fun it => (it.quantity : ℚ) * it.unitPrice).sum :=
  order_net_amount_invariant c6State 1 [⟨1, 2, none⟩] "南京市" "13900000000"
    .conforms ['O','R','D','1'] 5 c6OrderRow c6Inference (by
      have hprep : prepareItems c6State [⟨1, 2, none⟩] =
          .ok ([⟨1, "AirPods", 2, 100⟩], 0 + 100 * ((2 : ℤ) : ℚ)) := rfl
      have hamount : (0 : ℚ) + 100 * ((2 : ℤ) : ℚ) = 200 := by norm_num
      have hcount : countUserOrders c6State 1 = 1 := rfl
      have happR : applicableDiscounts "Regular" 200 false = [] := by
        simp only [applicableDiscounts,
          eq_false (by decide : ("Regular" : String) ≠ "SVIP"),
          eq_false (by decide : ("Regular" : String) ≠ "VIP"), if_false,
          Bool.false_eq_true]
        norm_num
      have hdisc : inferDiscount "Regular" 200 false =
          ⟨"无折扣", 1, 0, 200, none, []⟩ := by
        simp [inferDiscount, happR]
      have hship : inferShipping "Regular" 200 false =
          ⟨15, "Standard", false, 3⟩ := by
        simp only [inferShipping,
          eq_false (by decide : ("Regular" : String) ≠ "SVIP"),
          eq_false (by decide : ("Regular" : String) ≠ "VIP"),
          eq_false (by decide : ("Standard" : String) ≠ "NextDayDelivery"),
          if_false, false_and]
        norm_num
        all_goals decide
      have hlev : inferUserLevel 0 = "Regular" := by
        simp only [inferUserLevel]
        norm_num
      have hdec10 : decide ((1 : ℕ) = 0) = false := by decide
      have hrem : isRemoteAddress "南京市" = false := by decide
      have hinf : inferOrderDetails "Regular" 0 1 200 "南京市" = c6Inference := by
        simp only [inferOrderDetails, hlev, hdec10, hrem, hdisc, hship]
        norm_num [c6Inference]
      have hord : (orderServiceCreateOrder c6State 1 [⟨1, "AirPods", 2, 100⟩]
          "南京市" "13900000000" 0 ['O','R','D','1'] 5).1 = c6OrderRow := by
        simp only [orderServiceCreateOrder]
        norm_num [c6OrderRow, c6State]
      have hu : getUserById c6State 1 = some ⟨1, "Regular", 0⟩ := rfl
      unfold commerceCreateOrder
      rw [if_neg (by decide), hu]
      dsimp only
      rw [hprep]
      dsimp only
      rw [hamount, hcount, hinf]
      dsimp only [c6Inference]
      rw [hord])

/-! ### Cancellation has no side effects on denial (C7) -/

lemma orderServiceCancelOrder_false (st : DBState) (oid : ℕ) (s2 : DBState)
    (h : orderServiceCancelOrder st oid = (false, s2)) : s2 = st := by
  unfold orderServiceCancelOrder at h
  cases hg : getOrderById st oid with
  | none =>
    rw [hg] at h
    exact (Prod.mk.injEq .. ▸ h).2.symm
  | some o =>
    rw [hg] at h
    dsimp only at h
    by_cases hs : o.orderStatus = "pending" ∨ o.orderStatus = "paid"
    · rw [if_pos hs] at h
      exact absurd (Prod.mk.injEq .. ▸ h).1 (by simp)
    · rw [if_neg hs] at h
      exact (Prod.mk.injEq .. ▸ h).2.symm

lemma orderServiceCancelOrder_true (st : DBState) (oid : ℕ) (s2 : DBState)
    (h : orderServiceCancelOrder st oid = (true, s2)) :
    ∃ o2 ∈ s2.orders, o2.orderId = oid ∧ o2.orderStatus = "cancelled" := by
  unfold orderServiceCancelOrder at h
  cases hg : getOrderById st oid with
  | none =>
    rw [hg] at h
    exact absurd (Prod.mk.injEq .. ▸ h).1 (by simp)
  | some o =>
    rw [hg] at h
    dsimp only at h
    by_cases hs : o.orderStatus = "pending" ∨ o.orderStatus = "paid"
    · rw [if_pos hs] at h
      have hmem : o ∈ st.orders := List.mem_of_find?_eq_some hg
      have hbeq : (o.orderId == oid) = true := by
        have := List.find?_some hg
        simpa using this
      have hst2 : s2 = { st with orders := st.orders.map fun r =>
          if r.orderId == oid then { r with orderStatus := "cancelled" }
          else r } := (Prod.mk.injEq .. ▸ h).2.symm
      subst hst2
      refine ⟨{ o with orderStatus := "cancelled" }, ?_, by simpa using hbeq,
        rfl⟩
      have := List.mem_map_of_mem
        (fun r => if r.orderId == oid then
          ({ r with orderStatus := "cancelled" } : OrderRow) else r) hmem
      simp only [hbeq, if_true] at this
      exact this
    · rw [if_neg hs] at h
      exact absurd (Prod.mk.injEq .. ▸ h).1 (by simp)

/-- C7: for a resolvable order, `cancel_order` computes the cancellation
policy from the order status, elapsed hours and shipment presence; when
the policy denies, the result carries `cancelled = false` together with
the full policy rationale and the state is unchanged; whenever the result
reports no cancellation the state is unchanged; and a reported
cancellation implies the policy allowed it and the order row now reads
`cancelled`. -/
theorem cancel_order_mutates_only_when_allowed (st : DBState) (nowHours : ℚ)
    (ident : OrderIdent) (order : OrderRow)
    (hres : resolveOrderEntity st ident = .ok order) :
    ((cancellationContext st nowHours order).allowed = false →
      commerceCancelOrder st nowHours ident =
        (.ok ⟨false, false, cancellationContext st nowHours order⟩, st)) ∧
    (∀ res st2, commerceCancelOrder st nowHours ident = (.ok res, st2) →
      (res.cancelled = false → st2 = st) ∧
      (res.cancelled = true →
        (cancellationContext st nowHours order).allowed = true ∧
        ∃ o2 ∈ st2.orders, o2.orderId = order.orderId ∧
          o2.orderStatus = "cancelled")) := by
  constructor
  · intro hden
    unfold commerceCancelOrder
    rw [hres]
    dsimp only
    rw [if_pos hden]
  · intro res st2 hrun
    unfold commerceCancelOrder at hrun
    rw [hres] at hrun
    dsimp only at hrun
    by_cases hallow : (cancellationContext st nowHours order).allowed = false
    · rw [if_pos hallow] at hrun
      have h1 := (Prod.mk.injEq .. ▸ hrun).1
      have h2 := (Prod.mk.injEq .. ▸ hrun).2
      have hres2 : res = ⟨false, false, cancellationContext st nowHours order⟩ := by
        have := h1
        simp only [Except.ok.injEq] at this
        exact this.symm
      subst hres2
      exact ⟨fun _ => h2.symm, fun hcontra => absurd hcontra (by simp)⟩
    · rw [if_neg hallow] at hrun
      rcases hoc : orderServiceCancelOrder st order.orderId with ⟨cancelled, stNew⟩
      rw [hoc] at hrun
      dsimp only at hrun
      have hal : (cancellationContext st nowHours order).allowed = true := by
        revert hallow
        cases (cancellationContext st nowHours order).allowed <;> simp
      cases cancelled with
      | false =>
        have h1 := (Prod.mk.injEq .. ▸ hrun).1
        have h2 := (Prod.mk.injEq .. ▸ hrun).2
        have hres2 : res.cancelled = false := by
          simp only [Except.ok.injEq] at h1
          rw [← h1]
        refine ⟨fun _ => ?_, fun hcontra => absurd (hres2 ▸ hcontra) (by simp)⟩
        rw [← h2]
        exact orderServiceCancelOrder_false st order.orderId stNew hoc
      | true =>
        have h1 := (Prod.mk.injEq .. ▸ hrun).1
        have h2 := (Prod.mk.injEq .. ▸ hrun).2
        have hres2 : res = ⟨true, true,
            cancellationContext st nowHours order⟩ := by
          simp only [Except.ok.injEq] at h1
          rw [← h1]
          simp
        subst hres2
        refine ⟨fun hcontra => absurd hcontra (by simp), fun _ => ⟨hal, ?_⟩⟩
        rw [← h2]
        exact orderServiceCancelOrder_true st order.orderId stNew hoc

/-- A state holding one shipped order, which the policy must refuse to
cancel. -/
def c7State : DBState :=
  ⟨[], [],
   [⟨1, ['O','R','D','2'], 1, 100, 0, 100, "上海", "137", "shipped", "paid",
     some 0⟩],
   [], [], 2⟩

def c7Order : OrderRow :=
  ⟨1, ['O','R','D','2'], 1, 100, 0, 100, "上海", "137", "shipped", "paid",
   some 0⟩

/-- Witness for C7: cancelling the shipped order at clock value 7 is
denied, the policy rationale is returned, and the state is untouched. -/
theorem cancel_order_mutates_only_when_allowed_witness :
    commerceCancelOrder c7State 7 (.byId 1) =
      (.ok ⟨false, false, cancellationContext c7State 7 c7Order⟩, c7State) :=
  (cancel_order_mutates_only_when_allowed c7State 7 (.byId 1) c7Order rfl).1
    (by
      simp only [cancellationContext, inferCancellationPolicy]
      rw [if_pos (by decide)])

/-! ### Identifier round-trip (C9) -/

lemma digitChar_toNat (d : ℕ) (hd : d < 10) : (digitChar d).toNat = 48 + d := by
  interval_cases d <;> decide

lemma digitChar_mem (d : ℕ) (hd : d < 10) : digitChar d ∈ digitChars := by
  interval_cases d <;> decide

lemma digitChars_isDigit (c : Char) (hc : c ∈ digitChars) :
    c.isDigit = true := by
  fin_cases hc <;> decide

lemma digitChars_not_ws (c : Char) (hc : c ∈ digitChars) :
    c.isWhitespace = false := by
  fin_cases hc <;> decide

lemma digitChars_toUpper (c : Char) (hc : c ∈ digitChars) :
    c.toUpper = c := by
  fin_cases hc <;> decide

lemma digitsToNat_append (l : List Char) (c : Char) :
    digitsToNat (l ++ [c]) = 10 * digitsToNat l + (c.toNat - 48) := by
  simp only [digitsToNat, List.foldl_append, List.foldl_cons, List.foldl_nil]
  omega

lemma natToDigitsAux_correct : ∀ (fuel n : ℕ), n < fuel →
    digitsToNat (natToDigitsAux fuel n) = n := by
  intro fuel
  induction fuel with
  | zero => intro n hn; exact absurd hn (Nat.not_lt_zero n)
  | succ f ih =>
    intro n hn
    rw [natToDigitsAux]
    by_cases h10 : n < 10
    · rw [if_pos h10]
      simp only [digitsToNat, List.foldl_cons, List.foldl_nil]
      have := digitChar_toNat n h10
      omega
    · rw [if_neg h10]
      rw [digitsToNat_append]
      have hdiv : n / 10 < f := by
        have h1 : n / 10 < n := Nat.div_lt_self (by omega) (by omega)
        omega
      rw [ih (n / 10) hdiv]
      have := digitChar_toNat (n % 10) (Nat.mod_lt n (by omega))
      have := Nat.div_add_mod n 10
      omega

lemma natToRepr_correct (n : ℕ) : digitsToNat (natToRepr n) = n :=
  natToDigitsAux_correct (n + 1) n (Nat.lt_succ_self n)

lemma natToDigitsAux_mem : ∀ (fuel n : ℕ), ∀ c ∈ natToDigitsAux fuel n,
    c ∈ digitChars := by
  intro fuel
  induction fuel with
  | zero => intro n c hc; exact absurd hc (List.not_mem_nil c)
  | succ f ih =>
    intro n c hc
    rw [natToDigitsAux] at hc
    by_cases h10 : n < 10
    · rw [if_pos h10] at hc
      rcases List.mem_cons.mp hc with rfl | h
      · exact digitChar_mem n h10
      · exact absurd h (List.not_mem_nil c)
    · rw [if_neg h10] at hc
      rcases List.mem_append.mp hc with h | h
      · exact ih (n / 10) c h
      · rcases List.mem_cons.mp h with rfl | h2
        · exact digitChar_mem (n % 10) (Nat.mod_lt n (by omega))
        · exact absurd h2 (List.not_mem_nil c)

lemma natToRepr_mem (n : ℕ) (c : Char) (hc : c ∈ natToRepr n) :
    c ∈ digitChars :=
  natToDigitsAux_mem (n + 1) n c hc

lemma natToRepr_ne_nil (n : ℕ) : natToRepr n ≠ [] := by
  rw [natToRepr, natToDigitsAux]
  by_cases h10 : n < 10
  · rw [if_pos h10]; simp
  · rw [if_neg h10]; simp

lemma dropWhile_eq_self_of_false {p : Char → Bool} :
    ∀ l : List Char, (∀ c ∈ l, p c = false) → List.dropWhile p l = l := by
  intro l hl
  cases l with
  | nil => rfl
  | cons a t =>
    have ha := hl a (List.mem_cons_self a t)
    simp [List.dropWhile, ha]

lemma pyStrip_id (l : List Char) (hl : ∀ c ∈ l, c.isWhitespace = false) :
    pyStrip l = l := by
  unfold pyStrip
  rw [dropWhile_eq_self_of_false l hl,
    dropWhile_eq_self_of_false l.reverse
      (fun c hc => hl c (List.mem_reverse.mp hc)),
    List.reverse_reverse]

lemma map_toUpper_id (l : List Char) (hl : ∀ c ∈ l, Char.toUpper c = c) :
    l.map Char.toUpper = l := by
  induction l with
  | nil => rfl
  | cons a t ih =>
    rw [List.map_cons, hl a (List.mem_cons_self a t),
      ih (fun c hc => hl c (List.mem_cons_of_mem a hc))]

lemma find?_eq_some_of_unique {α : Type} (p : α → Bool) :
    ∀ (l : List α) (a : α), a ∈ l → p a = true →
      (∀ b ∈ l, p b = true → b = a) → l.find? p = some a := by
  intro l
  induction l with
  | nil => intro a ha; exact absurd ha (List.not_mem_nil a)
  | cons x t ih =>
    intro a ha hpa huniq
    by_cases hx : p x = true
    · rw [List.find?_cons_of_pos _ hx]
      rw [huniq x (List.mem_cons_self x t) hx]
    · rw [List.find?_cons_of_neg _ (by simpa using hx)]
      have hat : a ∈ t := by
        rcases List.mem_cons.mp ha with rfl | h
        · exact absurd hpa hx
        · exact h
      exact ih a hat hpa
        (fun b hb hpb => huniq b (List.mem_cons_of_mem x hb) hpb)

/-- C9: an order whose order number has the generated `ORD` + (at least 15)
digits format is resolved by `get_order_detail` both from its bare numeric
id and from the order-number string, and both lookups name the same
persisted record.  The hypotheses are the database key constraints (ids
and order numbers unique), the format of the stored number, and that the
digit block (a 14-digit timestamp plus a 4-digit user id in the source)
exceeds every autoincrement id in the table — which is what makes the
id-first probe of `_resolve_order_entity` fall through to the
order-number lookup. -/
theorem order_lookup_roundtrip (st : DBState) (o : OrderRow) (ds : List Char)
    (hmem : o ∈ st.orders)
    (hids : ∀ o1 ∈ st.orders, ∀ o2 ∈ st.orders,
      o1.orderId = o2.orderId → o1 = o2)
    (hnos : ∀ o1 ∈ st.orders, ∀ o2 ∈ st.orders,
      o1.orderNo = o2.orderNo → o1 = o2)
    (hno : o.orderNo = 'O' :: 'R' :: 'D' :: ds)
    (hdig : ∀ c ∈ ds, c ∈ digitChars)
    (hbig : 10 ^ 14 ≤ digitsToNat ds)
    (hbound : ∀ o2 ∈ st.orders, o2.orderId < 10 ^ 14) :
    getOrderDetail st (.byId o.orderId) =
      .ok ⟨o, getUserById st o.userId, getShipmentByOrder st o.orderId⟩ ∧
    getOrderDetail st (.byStr o.orderNo) =
      .ok ⟨o, getUserById st o.userId, getShipmentByOrder st o.orderId⟩ := by
  have hfind_id : getOrderById st o.orderId = some o := by
    unfold getOrderById
    exact find?_eq_some_of_unique _ st.orders o hmem (by simp)
      (fun b hb hpb => hids b hb o hmem (by simpa using hpb))
  have hfind_no : getOrderByNo st ('O' :: 'R' :: 'D' :: ds) = some o := by
    unfold getOrderByNo
    refine find?_eq_some_of_unique _ st.orders o hmem (by simp [hno]) ?_
    intro b hb hpb
    refine hnos b hb o hmem ?_
    rw [hno]
    simpa using hpb
  have hfind_none : getOrderById st (digitsToNat ds) = none := by
    unfold getOrderById
    rw [List.find?_eq_none]
    intro b hb
    have h1 := hbound b hb
    simp only [beq_iff_eq]
    omega
  have hres_id : resolveOrderEntity st (.byId o.orderId) = .ok o := by
    simp only [resolveOrderEntity, identRaw]
    rw [pyStrip_id _ (fun c hc => digitChars_not_ws c (natToRepr_mem _ c hc)),
      if_neg (natToRepr_ne_nil o.orderId),
      map_toUpper_id _ (fun c hc => digitChars_toUpper c (natToRepr_mem _ c hc)),
      List.filter_eq_self.mpr
        (fun c hc => digitChars_isDigit c (natToRepr_mem _ c hc)),
      if_neg (natToRepr_ne_nil o.orderId), natToRepr_correct, hfind_id]
  have hds_ne : ds ≠ [] := by
    intro hcontra
    rw [hcontra] at hbig
    simp [digitsToNat] at hbig
  have hfull_ws : ∀ c ∈ ('O' :: 'R' :: 'D' :: ds), c.isWhitespace = false := by
    intro c hc
    rcases List.mem_cons.mp hc with rfl | hc
    · decide
    · rcases List.mem_cons.mp hc with rfl | hc
      · decide
      · rcases List.mem_cons.mp hc with rfl | hc
        · decide
        · exact digitChars_not_ws c (hdig c hc)
  have hfull_up : ∀ c ∈ ('O' :: 'R' :: 'D' :: ds), Char.toUpper c = c := by
    intro c hc
    rcases List.mem_cons.mp hc with rfl | hc
    · decide
    · rcases List.mem_cons.mp hc with rfl | hc
      · decide
      · rcases List.mem_cons.mp hc with rfl | hc
        · decide
        · exact digitChars_toUpper c (hdig c hc)
  have hfilter : ('O' :: 'R' :: 'D' :: ds).filter Char.isDigit = ds := by
    rw [List.filter_cons_of_neg (by decide), List.filter_cons_of_neg (by decide),
      List.filter_cons_of_neg (by decide)]
    exact List.filter_eq_self.mpr (fun c hc => digitChars_isDigit c (hdig c hc))
  have hres_no : resolveOrderEntity st (.byStr o.orderNo) = .ok o := by
    simp only [resolveOrderEntity, identRaw, hno]
    rw [pyStrip_id _ hfull_ws, if_neg (by simp),
      map_toUpper_id _ hfull_up, hfilter, if_neg hds_ne, hfind_none]
    dsimp only
    rw [if_pos (by simp [List.isPrefixOf] :
        (['O','R','D'] : List Char).isPrefixOf ('O' :: 'R' :: 'D' :: ds) = true)]
    dsimp only
    rw [hfind_no]
  constructor
  · unfold getOrderDetail
    rw [hres_id]
  · unfold getOrderDetail
    rw [hres_no]

/-- A one-order state whose order number has the generated format. -/
def c9Digits : List Char :=
  ['2','0','2','5','0','1','0','1','1','2','3','0','4','5','0','0','0','1']

def c9Order : OrderRow :=
  ⟨1, 'O' :: 'R' :: 'D' :: c9Digits, 1, 100, 0, 100, "广州", "136", "pending",
   "unpaid", some 0⟩

def c9State : DBState := ⟨[], [], [c9Order], [], [], 2⟩

/-- Witness for C9: both identifier forms resolve the stored order. -/
theorem order_lookup_roundtrip_witness :
    getOrderDetail c9State (.byId c9Order.orderId) =
      .ok ⟨c9Order, getUserById c9State c9Order.userId,
        getShipmentByOrder c9State c9Order.orderId⟩ ∧
    getOrderDetail c9State (.byStr c9Order.orderNo) =
      .ok ⟨c9Order, getUserById c9State c9Order.userId,
        getShipmentByOrder c9State c9Order.orderId⟩ :=
  order_lookup_roundtrip c9State c9Order c9Digits
    (List.mem_cons_self _ _)
    (by
      intro o1 h1 o2 h2 hid
      simp only [c9State, List.mem_singleton] at h1 h2
      rw [h1, h2])
    (by
      intro o1 h1 o2 h2 hid
      simp only [c9State, List.mem_singleton] at h1 h2
      rw [h1, h2])
    rfl
    (by decide)
    (by decide)
    (by
      intro o2 h2
      simp only [c9State, List.mem_singleton] at h2
      rw [h2]
      decide)

end OntologyMCP
